import Mathlib

/-!
# Verification of the email organiser (src/email_organizer.py)

Shallow embedding of the core functions of the email organiser:
the content sniffer (`looks_like_email`), the domain classifier
(`get_domain`, `_extract_domains`), the per-file orchestration
(`process_single_email` / `_process_primary_copy` / `_process_gov_copies`),
the date resolver (`EmailDateParser.parse_date`), the attachment
collision resolution (`extract_embedded_attachments`), the HTML
linked-attachment path guard (`copy_attachments`), the metadata-preserving
copy (`copy_with_metadata` / `_safe_copy`) and the destination path
builder (`create_email_path`).

Python strings are modelled as `List Char`; machine- and OS-level
operations (file reads, `shutil.copy2`, `os.utime`) are modelled as pure
state transformations.  External stdlib calls whose internals are not part
of the repository (`email.utils.parsedate_to_datetime`, the structured MIME
parse of stage 1 of `extract_eml_details`) are taken as parameters of the
embedded functions, so theorems quantify over their possible outcomes or
pin them down by hypotheses that hold of the real library.
-/

namespace EmailOrg

/-- Python `str` modelled as a list of characters. -/
abbrev Str := List Char

/-! ## Basic character / string helpers (ASCII fragment used by the program) -/

/-- ASCII lower-casing of one character (model of `str.lower` per character;
the program's inputs in all theorems below are ASCII). -/
def lcChar (c : Char) : Char :=
  if 'A' ≤ c ∧ c ≤ 'Z' then Char.ofNat (c.toNat + 32) else c

/-- Model of Python `str.lower` on ASCII text. -/
def lcStr (s : Str) : Str := s.map lcChar

/-- Python `str.isspace` / regex `\s` membership for the ASCII range. -/
def isWS (c : Char) : Bool :=
  c = ' ' ∨ c = '\t' ∨ c = '\n' ∨ c = '\r' ∨ c = '\x0b' ∨ c = '\x0c'

/-- Model of Python `str.strip()` (whitespace stripped from both ends). -/
def pstrip (s : Str) : Str :=
  ((s.dropWhile (fun c => isWS c)).reverse.dropWhile (fun c => isWS c)).reverse

/-- Decimal digit test (regex `\d` on ASCII input). -/
def isDigitC (c : Char) : Bool := '0' ≤ c ∧ c ≤ '9'

/-- Value of a decimal digit character. -/
def dval (c : Char) : Nat := c.toNat - 48

/-- Model of Python `str.split(sep)` for a one-character separator:
`''.split(c) = ['']`, `'a@'.split('@') = ['a','']`. -/
def splitOnChar (sep : Char) : Str → List Str
  | [] => [[]]
  | c :: cs =>
    if c = sep then [] :: splitOnChar sep cs
    else
      match splitOnChar sep cs with
      | [] => [[c]]
      | p :: ps => (c :: p) :: ps

/-! ## Content Sniffer — `looks_like_email` (src lines 182-186) -/

/-- Substring occurrence test, modelling Python's `in` on strings. -/
def isSubstrOf (needle : Str) : Str → Bool
  | [] => needle.isPrefixOf []
  | c :: cs => needle.isPrefixOf (c :: cs) || isSubstrOf needle cs

/-- The fixed indicator vocabulary of `looks_like_email`. -/
def email_indicators : List Str :=
  ["From:", "To:", "Sent:", "Date:", "Subject:", "mailto:", "@",
   "Reply-To:", "Cc:", "Bcc:"].map String.toList

/-- `looks_like_email(content)`: at least 3 of the indicators occur
(case-insensitively) as substrings of the content. -/
def looks_like_email (content : Str) : Bool :=
  let cl := lcStr content
  3 ≤ (email_indicators.countP (fun ind => isSubstrOf (lcStr ind) cl))

/-! ## Domain Classifier — `get_domain` (src lines 188-192) -/

/-- Model of the address component returned by Python
`email.utils.parseaddr`, restricted to the shapes the organiser feeds it:
a bare address (`parseaddr` tokenises it, dropping surrounding blanks) or a
display-name-qualified address `Display <addr>` (possibly with a quoted
display name), for which `parseaddr` returns the text between the angle
brackets. -/
def parseaddr_addr (s : Str) : Str :=
  if '<' ∈ s then ((s.dropWhile (fun c => c ≠ '<')).drop 1).takeWhile (fun c => c ≠ '>')
  else pstrip s

/-- `get_domain(email_str)` (src lines 188-192): parse the bare address;
if it contains `'@'`, return `addr.split('@')[1].strip().lower()`,
else the literal `"unknown"`. -/
def get_domain (email_str : Str) : Str :=
  let addr := parseaddr_addr email_str
  if '@' ∈ addr then
    lcStr (pstrip (((splitOnChar '@' addr).get? 1).getD []))
  else "unknown".toList

/-! ## `EmailProcessor._extract_domains` (src lines 376-388) -/

/-- The `EmailDomains` dataclass (src lines 23-28); `gov_domains` is a
Python `set`, modelled as the deduplicated list of first occurrences. -/
structure EmailDomains where
  from_domain : Str
  to_domains : List Str
  cc_domains : List Str
  gov_domains : List Str
deriving DecidableEq, Repr

/-- `_extract_domains(details)` (src lines 376-388): classify `From`,
split `To`/`CC` on commas discarding blanks, collect all domains ending in
`.gov.uk` into a set, and default an empty sender domain to `"unknown"`. -/
def extract_domains (fromH toH ccH : Str) : EmailDomains :=
  let from_domain := get_domain fromH
  let to_domains := ((splitOnChar ',' toH).filter (fun a => pstrip a ≠ [])).map
    (fun a => get_domain (pstrip a))
  let cc_domains := ((splitOnChar ',' ccH).filter (fun a => pstrip a ≠ [])).map
    (fun a => get_domain (pstrip a))
  let all_domains := from_domain :: (to_domains ++ cc_domains)
  let gov_domains := (all_domains.filter
    (fun d => d ≠ [] ∧ (".gov.uk".toList).isSuffixOf d)).dedup
  { from_domain := if from_domain = [] then "unknown".toList else from_domain
    to_domains := to_domains
    cc_domains := cc_domains
    gov_domains := gov_domains }

/-! ## Path Organizer orchestration (src lines 344-414), as an event trace -/

/-- Strict lexicographic comparison on code points (Python `str <`). -/
def strLtB : Str → Str → Bool
  | [], [] => false
  | [], _ :: _ => true
  | _ :: _, [] => false
  | a :: as, b :: bs => if a < b then true else if a = b then strLtB as bs else false

/-- Non-strict lexicographic order used to model Python `sorted`. -/
def strLeB (a b : Str) : Bool := strLtB a b || a == b

/-- One observable file-system effect of processing a message:
a physical copy of the message under a domain folder, or an
attachment-extraction pass into that copy's folder. -/
inductive CopyEvent
  | msgCopy (domain : Str)
  | attachPass (domain : Str)
deriving DecidableEq, Repr

/-- `sorted(domains.gov_domains - {domains.from_domain})`
(src line 409). -/
def sorted_other_gov (d : EmailDomains) : List Str :=
  List.insertionSort (fun a b => strLeB a b = true)
    (d.gov_domains.filter (fun g => g ≠ d.from_domain))

/-- The copy/attachment event trace of `process_single_email`
(src lines 344-363): nothing when classification yields no `.gov.uk`
domain (line 357-360); otherwise the primary copy under the sender's
domain with its attachment pass (`_process_primary_copy`, lines 399-405)
followed by one copy plus attachment pass per remaining government domain
in sorted order (`_process_gov_copies`, lines 407-414). -/
def process_events (d : EmailDomains) : List CopyEvent :=
  if d.gov_domains = [] then []
  else
    [CopyEvent.msgCopy d.from_domain, CopyEvent.attachPass d.from_domain] ++
      (sorted_other_gov d).flatMap
        (fun g => [CopyEvent.msgCopy g, CopyEvent.attachPass g])

/-- The domains that receive a physical message copy, in order. -/
def copy_domains (d : EmailDomains) : List Str :=
  (process_events d).filterMap (fun e => match e with
    | CopyEvent.msgCopy dom => some dom
    | CopyEvent.attachPass _ => none)

/-- The domains that receive an attachment-extraction pass, in order. -/
def attach_domains (d : EmailDomains) : List Str :=
  (process_events d).filterMap (fun e => match e with
    | CopyEvent.msgCopy _ => none
    | CopyEvent.attachPass dom => some dom)

/-! ## Date Resolver — `EmailDateParser` (src lines 463-525)

`strptime` is modelled per format directive, following CPython's
`_strptime` compiled patterns: `%d` is `3[01]|[12]\d|0[1-9]|[1-9]`,
`%m` is `1[0-2]|0[1-9]|[1-9]`, `%H` is `2[0-3]|[0-1]\d|\d`,
`%M` is `[0-5]\d|\d`, `%S` is `6[01]|[0-5]\d|\d`, `%Y` is `\d{4}`,
whitespace in the format matches `\s+`, alternatives are tried in the
listed order, the whole input must be consumed, and the resulting field
values must form a valid calendar date (else `ValueError`). -/

/-- The result of a successful strptime-style parse. -/
structure DateTime where
  year : Nat
  month : Nat
  day : Nat
  hour : Nat
  minute : Nat
  second : Nat
  tzmin : Option Int
deriving DecidableEq, Repr

/-- Gregorian leap-year rule (as used by `datetime`). -/
def isLeap (y : Nat) : Bool := y % 4 = 0 ∧ (y % 100 ≠ 0 ∨ y % 400 = 0)

/-- Days in a month (as validated by the `datetime` constructor). -/
def daysInMonth (y m : Nat) : Nat :=
  if m = 2 then (if isLeap y then 29 else 28)
  else if m = 4 ∨ m = 6 ∨ m = 9 ∨ m = 11 then 30
  else 31

/-- The `datetime(...)` constructor's validation: `MINYEAR ≤ year ≤ MAXYEAR`
and a real calendar day, else `ValueError`. -/
def mkDT (y m d h mi s : Nat) (tz : Option Int) : Option DateTime :=
  if 1 ≤ y ∧ y ≤ 9999 ∧ 1 ≤ m ∧ m ≤ 12 ∧ 1 ≤ d ∧ d ≤ daysInMonth y m then
    some ⟨y, m, d, h, mi, s, tz⟩
  else none

/-- `%d`: `3[01]|[12]\d|0[1-9]|[1-9]`. -/
def pDay : Str → Option (Nat × Str)
  | c1 :: c2 :: rest =>
    if c1 = '3' ∧ (c2 = '0' ∨ c2 = '1') then some (30 + dval c2, rest)
    else if (c1 = '1' ∨ c1 = '2') ∧ isDigitC c2 then some (dval c1 * 10 + dval c2, rest)
    else if c1 = '0' ∧ '1' ≤ c2 ∧ c2 ≤ '9' then some (dval c2, rest)
    else if '1' ≤ c1 ∧ c1 ≤ '9' then some (dval c1, c2 :: rest)
    else none
  | [c1] => if '1' ≤ c1 ∧ c1 ≤ '9' then some (dval c1, []) else none
  | [] => none

/-- `%m`: `1[0-2]|0[1-9]|[1-9]`. -/
def pMonth : Str → Option (Nat × Str)
  | c1 :: c2 :: rest =>
    if c1 = '1' ∧ '0' ≤ c2 ∧ c2 ≤ '2' then some (10 + dval c2, rest)
    else if c1 = '0' ∧ '1' ≤ c2 ∧ c2 ≤ '9' then some (dval c2, rest)
    else if '1' ≤ c1 ∧ c1 ≤ '9' then some (dval c1, c2 :: rest)
    else none
  | [c1] => if '1' ≤ c1 ∧ c1 ≤ '9' then some (dval c1, []) else none
  | [] => none

/-- `%H`: `2[0-3]|[0-1]\d|\d`. -/
def pHour : Str → Option (Nat × Str)
  | c1 :: c2 :: rest =>
    if c1 = '2' ∧ '0' ≤ c2 ∧ c2 ≤ '3' then some (20 + dval c2, rest)
    else if (c1 = '0' ∨ c1 = '1') ∧ isDigitC c2 then some (dval c1 * 10 + dval c2, rest)
    else if isDigitC c1 then some (dval c1, c2 :: rest)
    else none
  | [c1] => if isDigitC c1 then some (dval c1, []) else none
  | [] => none

/-- `%M`: `[0-5]\d|\d`. -/
def pMinute : Str → Option (Nat × Str)
  | c1 :: c2 :: rest =>
    if '0' ≤ c1 ∧ c1 ≤ '5' ∧ isDigitC c2 then some (dval c1 * 10 + dval c2, rest)
    else if isDigitC c1 then some (dval c1, c2 :: rest)
    else none
  | [c1] => if isDigitC c1 then some (dval c1, []) else none
  | [] => none

/-- `%S`: `6[01]|[0-5]\d|\d`. -/
def pSecond : Str → Option (Nat × Str)
  | c1 :: c2 :: rest =>
    if c1 = '6' ∧ (c2 = '0' ∨ c2 = '1') then some (60 + dval c2, rest)
    else if '0' ≤ c1 ∧ c1 ≤ '5' ∧ isDigitC c2 then some (dval c1 * 10 + dval c2, rest)
    else if isDigitC c1 then some (dval c1, c2 :: rest)
    else none
  | [c1] => if isDigitC c1 then some (dval c1, []) else none
  | [] => none

/-- Exactly `n` decimal digits, returned as the digit characters. -/
def takeDigits : Nat → Str → Option (Str × Str)
  | 0, s => some ([], s)
  | n + 1, c :: rest =>
    if isDigitC c then
      match takeDigits n rest with
      | some (ds, s') => some (c :: ds, s')
      | none => none
    else none
  | _ + 1, [] => none

/-- Numeric value of a digit string. -/
def digitsVal (ds : Str) : Nat := ds.foldl (fun acc c => acc * 10 + dval c) 0

/-- `%Y`: exactly four digits. -/
def pYear4 (s : Str) : Option (Nat × Str) :=
  match takeDigits 4 s with
  | some (ds, s') => some (digitsVal ds, s')
  | none => none

/-- A literal character of the format string. -/
def pLit (c : Char) (s : Str) : Option Str :=
  match s with
  | c' :: rest => if c' = c then some rest else none
  | [] => none

/-- Whitespace in the format string: `\s+` (greedy; the token after it in
every format used here starts with a non-whitespace character). -/
def pWS1 : Str → Option Str
  | c :: rest => if isWS c then some (rest.dropWhile (fun c' => isWS c')) else none
  | [] => none

/-- `%a`: an abbreviated weekday name, case-insensitive; the parsed
weekday is not used by `strptime` for the date fields. -/
def pWeekdayA (s : Str) : Option Str :=
  match s with
  | c1 :: c2 :: c3 :: rest =>
    if [lcChar c1, lcChar c2, lcChar c3] ∈
        (["mon", "tue", "wed", "thu", "fri", "sat", "sun"].map String.toList) then
      some rest
    else none
  | _ => none

/-- `%b`: an abbreviated month name, case-insensitive. -/
def pMonthAbbr (s : Str) : Option (Nat × Str) :=
  match s with
  | c1 :: c2 :: c3 :: rest =>
    match (["jan", "feb", "mar", "apr", "may", "jun", "jul", "aug", "sep",
            "oct", "nov", "dec"].map String.toList).indexOf?
            [lcChar c1, lcChar c2, lcChar c3] with
    | some i => some (i + 1, rest)
    | none => none
  | _ => none

/-- `%z`: `[+-]\d\d:?\d\d` (or a literal `Z`), with the optional seconds
part consumed greedily when present and ignored, and the `timezone`
constructor's strict-24-hour bound enforced. -/
def pTZ : Str → Option (Int × Str)
  | 'Z' :: rest => some (0, rest)
  | sign :: h1 :: h2 :: rest0 =>
    if (sign = '+' ∨ sign = '-') ∧ isDigitC h1 ∧ isDigitC h2 then
      let afterMin : Option (Nat × Str) :=
        match rest0 with
        | ':' :: m1 :: m2 :: rest =>
          if isDigitC m1 ∧ isDigitC m2 then some (dval m1 * 10 + dval m2, rest) else none
        | m1 :: m2 :: rest =>
          if isDigitC m1 ∧ isDigitC m2 then some (dval m1 * 10 + dval m2, rest) else none
        | _ => none
      match afterMin with
      | some (mm, rest) =>
        let sec : Str :=
          match rest with
          | ':' :: s1 :: s2 :: rest' =>
            if isDigitC s1 ∧ isDigitC s2 then rest' else rest
          | s1 :: s2 :: rest' =>
            if isDigitC s1 ∧ isDigitC s2 then rest' else rest
          | _ => rest
        let total : Nat := (dval h1 * 10 + dval h2) * 60 + mm
        if total < 1440 then
          some ((if sign = '-' then -(total : Int) else (total : Int)), sec)
        else none
      | none => none
    else none
  | _ => none

/-- `strptime` with format `'%d/%m/%Y, %H:%M'`. -/
def fmt_dmY_c_HM (s : Str) : Option DateTime := do
  let (d, s) ← pDay s
  let s ← pLit '/' s
  let (m, s) ← pMonth s
  let s ← pLit '/' s
  let (y, s) ← pYear4 s
  let s ← pLit ',' s
  let s ← pWS1 s
  let (h, s) ← pHour s
  let s ← pLit ':' s
  let (mi, s) ← pMinute s
  if s = [] then mkDT y m d h mi 0 none else none

/-- `strptime` with format `'%d/%m/%Y %H:%M'`. -/
def fmt_dmY_HM (s : Str) : Option DateTime := do
  let (d, s) ← pDay s
  let s ← pLit '/' s
  let (m, s) ← pMonth s
  let s ← pLit '/' s
  let (y, s) ← pYear4 s
  let s ← pWS1 s
  let (h, s) ← pHour s
  let s ← pLit ':' s
  let (mi, s) ← pMinute s
  if s = [] then mkDT y m d h mi 0 none else none

/-- `strptime` with format `'%Y-%m-%d'`. -/
def fmt_Ymd (s : Str) : Option DateTime := do
  let (y, s) ← pYear4 s
  let s ← pLit '-' s
  let (m, s) ← pMonth s
  let s ← pLit '-' s
  let (d, s) ← pDay s
  if s = [] then mkDT y m d 0 0 0 none else none

/-- `strptime` with format `'%d/%m/%Y'`. -/
def fmt_dmY (s : Str) : Option DateTime := do
  let (d, s) ← pDay s
  let s ← pLit '/' s
  let (m, s) ← pMonth s
  let s ← pLit '/' s
  let (y, s) ← pYear4 s
  if s = [] then mkDT y m d 0 0 0 none else none

/-- `strptime` with format `'%Y-%m-%d %H:%M'`. -/
def fmt_Ymd_HM (s : Str) : Option DateTime := do
  let (y, s) ← pYear4 s
  let s ← pLit '-' s
  let (m, s) ← pMonth s
  let s ← pLit '-' s
  let (d, s) ← pDay s
  let s ← pWS1 s
  let (h, s) ← pHour s
  let s ← pLit ':' s
  let (mi, s) ← pMinute s
  if s = [] then mkDT y m d h mi 0 none else none

/-- `strptime` with format `'%Y-%m-%dT%H:%M:%S'`. -/
def fmt_YmdTHMS (s : Str) : Option DateTime := do
  let (y, s) ← pYear4 s
  let s ← pLit '-' s
  let (m, s) ← pMonth s
  let s ← pLit '-' s
  let (d, s) ← pDay s
  let s ← pLit 'T' s
  let (h, s) ← pHour s
  let s ← pLit ':' s
  let (mi, s) ← pMinute s
  let s ← pLit ':' s
  let (sec, s) ← pSecond s
  if s = [] then mkDT y m d h mi sec none else none

/-- `strptime` with format `'%a, %d %b %Y %H:%M:%S %z'`. -/
def fmt_rfc822 (s : Str) : Option DateTime := do
  let s ← pWeekdayA s
  let s ← pLit ',' s
  let s ← pWS1 s
  let (d, s) ← pDay s
  let s ← pWS1 s
  let (m, s) ← pMonthAbbr s
  let s ← pWS1 s
  let (y, s) ← pYear4 s
  let s ← pWS1 s
  let (h, s) ← pHour s
  let s ← pLit ':' s
  let (mi, s) ← pMinute s
  let s ← pLit ':' s
  let (sec, s) ← pSecond s
  let s ← pWS1 s
  let (tz, s) ← pTZ s
  if s = [] then mkDT y m d h mi sec (some tz) else none

/-- `strptime` with format `'%d-%m-%Y'` (used for the dashed day-first
filename capture, src line 508). -/
def fmt_dmY_dash (s : Str) : Option DateTime := do
  let (d, s) ← pDay s
  let s ← pLit '-' s
  let (m, s) ← pMonth s
  let s ← pLit '-' s
  let (y, s) ← pYear4 s
  if s = [] then mkDT y m d 0 0 0 none else none

/-- The `DATE_FORMATS` loop (src lines 465-468 and 479-483): each format
is tried in the listed order, first success wins. -/
def try_date_formats (s : Str) : Option DateTime :=
  (fmt_dmY_c_HM s).orElse fun _ =>
  (fmt_dmY_HM s).orElse fun _ =>
  (fmt_Ymd s).orElse fun _ =>
  (fmt_dmY s).orElse fun _ =>
  (fmt_Ymd_HM s).orElse fun _ =>
  (fmt_YmdTHMS s).orElse fun _ =>
  fmt_rfc822 s

/-- `re.search`: try the anchored matcher at each position, leftmost
success wins. -/
def searchPos (m : Str → Option Str) : Str → Option Str
  | [] => m []
  | c :: cs =>
    match m (c :: cs) with
    | some cap => some cap
    | none => searchPos m cs

/-- Anchored matcher for `(\d{4}-\d{2}-\d{2})`. -/
def mISOdate (s : Str) : Option Str := do
  let (a, s) ← takeDigits 4 s
  let s ← pLit '-' s
  let (b, s) ← takeDigits 2 s
  let s ← pLit '-' s
  let (c, _) ← takeDigits 2 s
  pure (a ++ '-' :: b ++ '-' :: c)

/-- Anchored matcher for `(\d{2}/\d{2}/\d{4})`. -/
def mDDsMMsYYYY (s : Str) : Option Str := do
  let (a, s) ← takeDigits 2 s
  let s ← pLit '/' s
  let (b, s) ← takeDigits 2 s
  let s ← pLit '/' s
  let (c, _) ← takeDigits 4 s
  pure (a ++ '/' :: b ++ '/' :: c)

/-- Anchored matcher for `(\d{4}/\d{2}/\d{2})`. -/
def mYYYYsMMsDD (s : Str) : Option Str := do
  let (a, s) ← takeDigits 4 s
  let s ← pLit '/' s
  let (b, s) ← takeDigits 2 s
  let s ← pLit '/' s
  let (c, _) ← takeDigits 2 s
  pure (a ++ '/' :: b ++ '/' :: c)

/-- `EmailDateParser._extract_date_portion` (src lines 514-521): the three
bare-date patterns searched in order, first match's capture returned. -/
def extract_date_portion (s : Str) : Option Str :=
  (searchPos mISOdate s).orElse fun _ =>
  (searchPos mDDsMMsYYYY s).orElse fun _ =>
  searchPos mYYYYsMMsDD s

/-- Anchored matcher for `[-_](\d{8})[-_]` (capture only). -/
def mDelim8 : Str → Option Str
  | c :: rest =>
    if c = '-' ∨ c = '_' then
      match takeDigits 8 rest with
      | some (ds, t :: _) => if t = '-' ∨ t = '_' then some ds else none
      | _ => none
    else none
  | [] => none

/-- Anchored matcher for `(\d{8})[._]`. -/
def mDigits8dot (s : Str) : Option Str :=
  match takeDigits 8 s with
  | some (ds, t :: _) => if t = '.' ∨ t = '_' then some ds else none
  | _ => none

/-- Anchored matcher for `[-_](\d{6})[-_]`. -/
def mDelim6 : Str → Option Str
  | c :: rest =>
    if c = '-' ∨ c = '_' then
      match takeDigits 6 rest with
      | some (ds, t :: _) => if t = '-' ∨ t = '_' then some ds else none
      | _ => none
    else none
  | [] => none

/-- Anchored matcher for `(\d{2}-\d{2}-\d{4})`. -/
def mDMYdash (s : Str) : Option Str := do
  let (a, s) ← takeDigits 2 s
  let s ← pLit '-' s
  let (b, s) ← takeDigits 2 s
  let s ← pLit '-' s
  let (c, _) ← takeDigits 4 s
  pure (a ++ '-' :: b ++ '-' :: c)

/-- The capture dispatch of the filename loop (src lines 498-510):
8 digits → `%Y%m%d`; 6 digits → prefixed with `20` then `%Y%m%d`; a dashed
capture → ISO order when it starts with `20`, else day-first order.
`%Y%m%d` on an 8-digit capture succeeds exactly when a two-digit month
token and a two-digit day token fully consume the digits and the date is
valid (any shorter tokenisation leaves unconverted data, which
`strptime` rejects). -/
def try_filename_capture (cap : Str) : Option DateTime :=
  if cap.length = 8 then
    (do
      let (y, s) ← pYear4 cap
      let (m, s) ← pMonth s
      let (d, s) ← pDay s
      if s = [] then mkDT y m d 0 0 0 none else none)
  else if cap.length = 6 then
    (do
      let (y, s) ← pYear4 ('2' :: '0' :: cap)
      let (m, s) ← pMonth s
      let (d, s) ← pDay s
      if s = [] then mkDT y m d 0 0 0 none else none)
  else if '-' ∈ cap then
    if ("20".toList).isPrefixOf cap then fmt_Ymd cap else fmt_dmY_dash cap
  else none

/-- One step of the filename-pattern loop: a found capture that fails to
parse falls through to the next pattern (`continue`, src line 510), as
does an absent match. -/
def scan_step (found : Option Str) (next : Option DateTime) : Option DateTime :=
  match found with
  | some cap =>
    match try_filename_capture cap with
    | some dt => some dt
    | none => next
  | none => next

/-- The filename-pattern loop of `parse_date` (src lines 490-510): the
five patterns searched in order, first parseable match wins. -/
def filename_scan (fn : Str) : Option DateTime :=
  scan_step (searchPos mDelim8 fn)
    (scan_step (searchPos mDigits8dot fn)
      (scan_step (searchPos mDelim6 fn)
        (scan_step (searchPos mISOdate fn)
          (scan_step (searchPos mDMYdash fn) none))))

/-- What `parse_date` returns when it does not return `None`: a parsed
datetime, or the current wall-clock time (`datetime.now()`, src
line 512), kept symbolic. -/
inductive DateOutcome
  | parsed (dt : DateTime)
  | currentTime
deriving DecidableEq, Repr

/-- Python truthiness of an optional string (`None` and `''` are falsy). -/
def truthy : Option Str → Bool
  | none => false
  | some s => s ≠ []

/-- The `date_str` stages of `parse_date` (src lines 474-489):
`parsedate_to_datetime` first (the parameter `rfc`), then the
`DATE_FORMATS` loop, then the bare-date-portion extraction parsed as ISO;
`none` when all fail or when the string is falsy. -/
def date_str_stage (rfc : Str → Option DateTime) (date_str : Option Str) :
    Option DateTime :=
  match date_str with
  | some ds =>
    if ds ≠ [] then
      match rfc (pstrip ds) with
      | some dt => some dt
      | none =>
        match try_date_formats (pstrip ds) with
        | some dt => some dt
        | none =>
          match extract_date_portion ds with
          | some dp => fmt_Ymd dp
          | none => none
    else none
  | none => none

/-- The filename stage and final fallback of `parse_date` (src
lines 490-512): scan the filename when it is truthy, else — and when the
scan fails — return the current wall-clock time. -/
def filename_stage (filename : Option Str) : Option DateOutcome :=
  match filename with
  | some fn =>
    if fn ≠ [] then
      match filename_scan fn with
      | some dt => some (DateOutcome.parsed dt)
      | none => some DateOutcome.currentTime
    else some DateOutcome.currentTime
  | none => some DateOutcome.currentTime

/-- `EmailDateParser.parse_date(date_str, filename)` (src lines 470-512).
The first stage, `email.utils.parsedate_to_datetime` on the stripped
string (line 476, failures caught), is stdlib code outside the repository
and is taken as the parameter `rfc` (`none` models a raised
`TypeError`/`ValueError`).  `None` is returned up front when both
arguments are falsy (line 472-473). -/
def parse_date (rfc : Str → Option DateTime) (date_str filename : Option Str) :
    Option DateOutcome :=
  if ¬ truthy date_str ∧ ¬ truthy filename then none
  else
    match date_str_stage rfc date_str with
    | some dt => some (DateOutcome.parsed dt)
    | none => filename_stage filename

/-- Resolution of a `parse_date` outcome against a wall clock value,
as the caller observes it. -/
def resolveOutcome (now : DateTime) : Option DateOutcome → DateTime
  | some (DateOutcome.parsed dt) => dt
  | some DateOutcome.currentTime => now
  | none => now

/-- `EmailProcessor._get_date_info` (src lines 390-397): the resolved
datetime is `parse_date(details.get('Date'), filename=file_path.name) or
datetime.now()`, so a `None` from the parser is replaced by the current
time. -/
def get_date_info_dt (rfc : Str → Option DateTime) (dateHdr fname : Str)
    (now : DateTime) : DateTime :=
  resolveOutcome now (parse_date rfc (some dateHdr) (some fname))

/-! ## `create_email_path` (src lines 194-198) -/

/-- The character class of `re.sub(r'[<>:"/\\|?*]', '_', ...)`
(src lines 195 and 237). -/
def badChar (c : Char) : Bool :=
  c ∈ ['<', '>', ':', '\"', '/', '\\', '|', '?', '*']

/-- One character of the substitution: illegal characters become `'_'`. -/
def replBad (c : Char) : Char := if badChar c then '_' else c

/-- `safe_subject = re.sub(r'[<>:"/\\|?*]', '_', subject)[:100]`
(src line 195). -/
def safe_subject (subject : Str) : Str := (subject.map replBad).take 100

/-- `os.path.join(base_dir, domain, year, safe_subject)` (src line 196),
for a non-empty base directory without a trailing separator and relative
components (the sanitised subject contains no `'/'`). -/
def create_email_path (base_dir domain year subject : Str) : Str :=
  base_dir ++ '/' :: domain ++ '/' :: year ++ '/' :: safe_subject subject

/-! ## Attachment filename collisions —
`extract_embedded_attachments` (src lines 236-249) -/

/-- `re.sub(r'[<>:"/\\|?*]', '_', filename)` (src line 237). -/
def sanitize_filename (filename : Str) : Str := filename.map replBad

/-- Model of `os.path.splitext` on a basename: split at the last dot,
unless every character before that dot is itself a dot (names made of
leading dots have no extension). -/
def splitext (s : Str) : Str × Str :=
  match ((List.range s.length).filter (fun i => s.get? i = some '.')).getLast? with
  | none => (s, [])
  | some i =>
    if (s.take i).all (fun c => c = '.') then (s, [])
    else (s.take i, s.drop i)

/-- `f"{base}_{counter}{ext}"` (src line 242). -/
def candidateName (base ext : Str) (counter : Nat) : Str :=
  base ++ '_' :: (Nat.toDigits 10 counter) ++ ext

/-- The `while os.path.exists(dst_file)` loop (src lines 239-243), with
the directory contents modelled as the list of existing names.  The
Python loop is unbounded; `existing.length + 1` iterations always
suffice, because the candidate names for distinct counters are pairwise
distinct, so some candidate among the first `existing.length + 1` is not
in `existing`. -/
def collide_loop (existing : List Str) (base ext : Str) : Nat → Nat → Str
  | counter, 0 => candidateName base ext counter
  | counter, fuel + 1 =>
    let c := candidateName base ext counter
    if c ∈ existing then collide_loop existing base ext (counter + 1) fuel else c

/-- The destination name chosen for a sanitised attachment filename
(src lines 238-243): the name itself when free, else the first free
numeric-suffix candidate starting from counter 1. -/
def resolve_dst_name (existing : List Str) (safe : Str) : Str :=
  if safe ∈ existing then
    collide_loop existing (splitext safe).1 (splitext safe).2 1 (existing.length + 1)
  else safe

/-- The write loop of `extract_embedded_attachments` (src lines 224-250)
restricted to its naming effect: for each part that reaches the write
step (non-multipart, named, not an inline image, payload decodes), the
sanitised filename is collision-resolved against the current directory
contents and the written name is added to them.  Returns the written
names in order together with the final directory contents. -/
def extract_attachment_names (existing0 : List Str) (parts : List Str) :
    List Str × List Str :=
  parts.foldl
    (fun acc p =>
      let safe := sanitize_filename p
      let dst := resolve_dst_name acc.2 safe
      (acc.1 ++ [dst], dst :: acc.2))
    ([], existing0)

/-! ## `copy_with_metadata` (src lines 200-211) and
`EmailProcessor._safe_copy` (src lines 416-423) -/

/-- The attributes of a file the copy path manipulates: its bytes and its
access/modification timestamps (seconds, as passed to `os.utime`). -/
structure FileAttrs where
  content : List Nat
  atimeTs : Int
  mtimeTs : Int
deriving DecidableEq, Repr

/-- Days from civil for the epoch conversion used by
`datetime.timestamp()`; the years produced by the parser are ≥ 1, so the
truncated integer divisions agree with floor division here.  (For naive
datetimes CPython applies the local-time offset; the model uses UTC, which
claims below do not depend on.) -/
def daysFromCivil (y m d : Int) : Int :=
  let y' := if m ≤ 2 then y - 1 else y
  let era := (if 0 ≤ y' then y' else y' - 399) / 400
  let yoe := y' - era * 400
  let mp := (m + 9) % 12
  let doy := (153 * mp + 2) / 5 + d - 1
  let doe := yoe * 365 + yoe / 4 - yoe / 100 + doy
  era * 146097 + doe - 719468

/-- `internal_dt.timestamp()` (src line 204). -/
def dtTimestamp (dt : DateTime) : Int :=
  daysFromCivil (dt.year : Int) (dt.month : Int) (dt.day : Int) * 86400 +
    (dt.hour : Int) * 3600 + (dt.minute : Int) * 60 + (dt.second : Int) -
    60 * dt.tzmin.getD 0

/-- `shutil.copy2(src, dst)` (src line 202): the destination receives the
source's bytes and its metadata, including both timestamps. -/
def shutil_copy2 (src : FileAttrs) : FileAttrs := src

/-- `os.utime(dst, (atime, mtime))` (src lines 205 and 208). -/
def os_utime (f : FileAttrs) (a m : Int) : FileAttrs :=
  { f with atimeTs := a, mtimeTs := m }

/-- `copy_with_metadata(src, dst, internal_dt)` (src lines 200-211): copy
with metadata, then overwrite both timestamps with the internal date when
one is given, else re-apply the source's own stat times. -/
def copy_with_metadata (src : FileAttrs) (internal_dt : Option DateTime) : FileAttrs :=
  let dst := shutil_copy2 src
  match internal_dt with
  | some dt => os_utime dst (dtTimestamp dt) (dtTimestamp dt)
  | none => os_utime dst src.atimeTs src.mtimeTs

/-- `EmailProcessor._safe_copy(src, dst, timestamp)` (src lines 416-423):
always calls `copy_with_metadata` with the resolved message datetime. -/
def safe_copy_file (src : FileAttrs) (timestamp : DateTime) : FileAttrs :=
  copy_with_metadata src (some timestamp)

/-! ## HTML linked-attachment path — `copy_attachments`
(src lines 269-293) -/

/-- The decision taken for one `href` of the HTML path. -/
inductive LinkDecision
  | skipProtocol
  | skipImage
  | pathRejected
  | copyFrom (src_file : Str)
deriving DecidableEq, Repr

/-- The skipped link schemes (src line 277). -/
def protocol_marks : List Str :=
  ["mailto:", "http:", "https:", "tel:", "#", "data:"].map String.toList

/-- `path.startswith(tuple)` over the scheme list. -/
def startsWithAny (s : Str) (ps : List Str) : Bool :=
  ps.any (fun p => p.isPrefixOf s)

/-- The inline-image extensions skipped by both attachment paths
(src lines 233 and 280). -/
def image_exts : List Str :=
  [".jpg", ".jpeg", ".png", ".gif", ".bmp", ".svg", ".webp"].map String.toList

/-- `os.path.isabs` for POSIX paths. -/
def os_isabs (p : Str) : Bool :=
  match p with
  | '/' :: _ => true
  | _ => false

/-- `os.path.basename` for POSIX paths. -/
def basenameOf (p : Str) : Str :=
  (p.reverse.takeWhile (fun c => c ≠ '/')).reverse

/-- `os.path.join(a, b)` for a non-empty `a` without a trailing
separator. -/
def joinPath (a b : Str) : Str :=
  if os_isabs b then b else a ++ '/' :: b

/-- Component normalisation of `os.path.normpath` on an absolute POSIX
path: drop empty and `'.'` components, let `'..'` pop the previous
component (or vanish at the root). -/
def normComponents : List Str → List Str → List Str
  | stack, [] => stack.reverse
  | stack, comp :: rest =>
    if comp = [] ∨ comp = ".".toList then normComponents stack rest
    else if comp = "..".toList then
      match stack with
      | [] => normComponents [] rest
      | _ :: t => normComponents t rest
    else normComponents (comp :: stack) rest

/-- `os.path.normpath` on an absolute POSIX path. -/
def normpathAbs (p : Str) : Str :=
  match normComponents [] (splitOnChar '/' p) with
  | [] => "/".toList
  | comps => '/' :: (List.intercalate ("/".toList) comps)

/-- The per-link decision of the HTML branch of `copy_attachments`
(src lines 275-288): skip scheme-qualified and image links; resolve an
absolute href to its basename inside the source directory, a relative
href through `normpath(join(src_path, path))`; then the guard
`src_file.startswith(src_path)` decides between copying and rejecting. -/
def htmlLinkDecision (srcPath href : Str) : LinkDecision :=
  if href = [] ∨ startsWithAny href protocol_marks then LinkDecision.skipProtocol
  else if image_exts.any (fun e => e.isSuffixOf (lcStr href)) then LinkDecision.skipImage
  else
    let src_file := if os_isabs href then joinPath srcPath (basenameOf href)
                    else normpathAbs (joinPath srcPath href)
    if srcPath.isPrefixOf src_file then LinkDecision.copyFrom src_file
    else LinkDecision.pathRejected

/-- The specification's notion of a path lying inside a directory: the
directory itself, or a proper descendant (the directory followed by a
separator is a prefix of the path). -/
def inDirectory (dir p : Str) : Bool :=
  p == dir || (dir ++ ['/']).isPrefixOf p

/-! ## EML header extraction — `extract_eml_details` (src lines 138-180) -/

/-- The fixed-key header record (`From`, `To`, `CC`, `Subject`, `Date`). -/
structure Headers where
  fromH : Str
  toH : Str
  ccH : Str
  subjH : Str
  dateH : Str
deriving DecidableEq, Repr

/-- The all-empty record every extraction starts from (src line 139). -/
def emptyHeaders : Headers := ⟨[], [], [], [], []⟩

/-- `any(headers.values())` (src line 153). -/
def anyNonEmpty (h : Headers) : Bool :=
  h.fromH ≠ [] ∨ h.toH ≠ [] ∨ h.ccH ≠ [] ∨ h.subjH ≠ [] ∨ h.dateH ≠ []

/-- The tail `\s*([^\n]+)` of the per-header patterns, with regex
backtracking semantics: the greedy whitespace run retreats until a
non-newline character starts the one-or-more capture, which then extends
to the next newline. -/
def matchWsCapture (rest : Str) : Option Str :=
  let w := (rest.takeWhile (fun c => isWS c)).length
  match ((List.range (w + 1)).reverse).find?
      (fun i => match rest.drop i with
        | c :: _ => c ≠ '\n'
        | [] => false) with
  | some i => some ((rest.drop i).takeWhile (fun c => c ≠ '\n'))
  | none => none

/-- `re.search(r'Name:\s*([^\n]+)', content, re.IGNORECASE)` (src
lines 167-175): leftmost position where the case-insensitive literal and
the tail both match. -/
def searchHeaderValue (name : Str) : Str → Option Str
  | [] => none
  | c :: cs =>
    let here :=
      if (lcStr (name ++ [':'])).isPrefixOf (lcStr (c :: cs)) then
        matchWsCapture ((c :: cs).drop (name.length + 1))
      else none
    match here with
    | some cap => some cap
    | none => searchHeaderValue name cs

/-- Stage 3 of `extract_eml_details` (src lines 164-177): each header
independently searched by regex over the raw text, the capture stripped,
absent matches leaving the initial `''`. -/
def regex_header_fallback (content : Str) : Headers :=
  { fromH := ((searchHeaderValue ("From".toList) content).map pstrip).getD []
    toH := ((searchHeaderValue ("To".toList) content).map pstrip).getD []
    ccH := ((searchHeaderValue ("CC".toList) content).map pstrip).getD []
    subjH := ((searchHeaderValue ("Subject".toList) content).map pstrip).getD []
    dateH := ((searchHeaderValue ("Date".toList) content).map pstrip).getD [] }

/-- Consume a case-sensitive literal. -/
def matchLit (lit s : Str) : Option Str :=
  if lit.isPrefixOf s then some (s.drop lit.length) else none

/-- `\d{1,2}` immediately followed by the literal `sep` (with the regex's
greedy-then-retreat choice folded in: the separator is never a digit, so
the two-digit alternative succeeds exactly when two digits precede the
separator); consumes the digits and the separator. -/
def skipD12Then (sep : Char) (s : Str) : Option Str :=
  match s with
  | d1 :: d2 :: c :: rest =>
    if isDigitC d1 ∧ isDigitC d2 ∧ c = sep then some rest
    else if isDigitC d1 ∧ d2 = sep then some (c :: rest)
    else none
  | [d1, d2] => if isDigitC d1 ∧ d2 = sep then some [] else none
  | _ => none

/-- Exactly `n` digits, consumed. -/
def skipDigitsN (n : Nat) (s : Str) : Option Str :=
  match takeDigits n s with
  | some (_, rest) => some rest
  | none => none

/-- Anchored matcher for `Date:\s*</div>([^<]+)` (src line 125);
case-sensitive.  The greedy whitespace run cannot retreat usefully since
`'<'` is not whitespace. -/
def mDateDiv (s : Str) : Option Str := do
  let s ← matchLit ("Date:".toList) s
  let s := s.dropWhile (fun c => isWS c)
  let s ← matchLit ("</div>".toList) s
  match s.takeWhile (fun c => c ≠ '<') with
  | [] => none
  | cap => some cap

/-- Anchored matcher for
`Date:\s*(\d{1,2}/\d{1,2}/\d{4},?\s*\d{1,2}:\d{2})` (src line 126); the
capture is the consumed date-time substring. -/
def mDateNumeric1 (s : Str) : Option Str := do
  let s ← matchLit ("Date:".toList) s
  let s := s.dropWhile (fun c => isWS c)
  let start := s
  let s ← skipD12Then '/' s
  let s ← skipD12Then '/' s
  let s ← skipDigitsN 4 s
  let s := match s with
    | ',' :: r => r
    | _ => s
  let s := s.dropWhile (fun c => isWS c)
  let s ← skipD12Then ':' s
  let s ← skipDigitsN 2 s
  pure (start.take (start.length - s.length))

/-- Anchored matcher for `Date:\s*(\d{4}-\d{2}-\d{2}\s*\d{1,2}:\d{2})`
(src line 127). -/
def mDateNumeric2 (s : Str) : Option Str := do
  let s ← matchLit ("Date:".toList) s
  let s := s.dropWhile (fun c => isWS c)
  let start := s
  let s ← skipDigitsN 4 s
  let s ← pLit '-' s
  let s ← skipDigitsN 2 s
  let s ← pLit '-' s
  let s ← skipDigitsN 2 s
  let s := s.dropWhile (fun c => isWS c)
  let s ← skipD12Then ':' s
  let s ← skipDigitsN 2 s
  pure (start.take (start.length - s.length))

/-- Anchored matcher for `Sent:\s*(\d{1,2}/\d{1,2}/\d{4})`
(src line 128). -/
def mSentSlash (s : Str) : Option Str := do
  let s ← matchLit ("Sent:".toList) s
  let s := s.dropWhile (fun c => isWS c)
  let start := s
  let s ← skipD12Then '/' s
  let s ← skipD12Then '/' s
  let s ← skipDigitsN 4 s
  pure (start.take (start.length - s.length))

/-- Anchored matcher for `Sent:\s*(\d{4}-\d{2}-\d{2})` (src line 129). -/
def mSentISO (s : Str) : Option Str := do
  let s ← matchLit ("Sent:".toList) s
  let s := s.dropWhile (fun c => isWS c)
  let start := s
  let s ← skipDigitsN 4 s
  let s ← pLit '-' s
  let s ← skipDigitsN 2 s
  let s ← pLit '-' s
  let s ← skipDigitsN 2 s
  pure (start.take (start.length - s.length))

/-- The secondary `Date` regex chain of `extract_email_details`
(src lines 123-135): five patterns tried in order over the whole text,
the first match's capture stripped. -/
def html_date_fallback (content : Str) : Option Str :=
  ((searchPos mDateDiv content).orElse fun _ =>
   (searchPos mDateNumeric1 content).orElse fun _ =>
   (searchPos mDateNumeric2 content).orElse fun _ =>
   (searchPos mSentSlash content).orElse fun _ =>
   searchPos mSentISO content).map pstrip

/-- `extract_email_details` (src lines 88-136) specialised to text
containing no `'<'` character: `html.parser` builds no
`span`/`div`/`td`/`th`/`p` elements from markup-free text, so every
`soup.find` at lines 107-120 returns `None` and each header keeps its
initial `''`; only the `Date` regex fallback (lines 123-135) can fire.
The sniffer gate at line 102 is kept. -/
def extract_email_details_noTags (content : Str) : Headers :=
  if ¬ looks_like_email content then emptyHeaders
  else { emptyHeaders with dateH := (html_date_fallback content).getD [] }

/-- `extract_eml_details` (src lines 148-180) for a non-placeholder file,
as a function of the file's text.  Stage 1 — `message_from_file` over the
raw bytes — is stdlib parsing outside the repository and is taken as the
parameter `mime` (`none` models a raised exception; in fact the source
opens the file in binary mode and feeds bytes to the text-mode parser,
which always raises `TypeError`, so `none` is the realised case).  The
HTML extractor invoked by stage 2 is the parameter `htmlExtract`.  Stage 1
returns its record only when some header is non-empty (line 153);
otherwise, when the Content Sniffer accepts the text, stage 2 returns the
HTML extractor's record unconditionally (lines 160-161); only when the
sniffer rejects does stage 3 fill the still-all-empty record from the
per-header regexes (lines 164-177). -/
def extract_eml_details_model (mime : Option Headers) (htmlExtract : Str → Headers)
    (content : Str) : Headers :=
  match mime with
  | some h =>
    if anyNonEmpty h then h
    else if looks_like_email content then htmlExtract content
    else regex_header_fallback content
  | none =>
    if looks_like_email content then htmlExtract content
    else regex_header_fallback content

/-! ## Theorems -/

/-! ### Helper lemmas -/

/-- Every character of the parsed bare address occurs in the input
string: `parseaddr_addr` only ever drops characters. -/
theorem mem_of_mem_parseaddr_addr {c : Char} {s : Str}
    (h : c ∈ parseaddr_addr s) : c ∈ s := by
  unfold parseaddr_addr at h
  by_cases hlt : '<' ∈ s
  · rw [if_pos hlt] at h
    exact List.dropWhile_subset _ (List.drop_subset _ _ (List.takeWhile_subset _ h))
  · rw [if_neg hlt] at h
    unfold pstrip at h
    rw [List.mem_reverse] at h
    have h2 := List.dropWhile_subset (l := ((s.dropWhile fun c => isWS c).reverse))
      (fun c => isWS c) h
    rw [List.mem_reverse] at h2
    exact List.dropWhile_subset _ h2

/-- A replaced character is never one of the illegal path characters. -/
theorem badChar_replBad (c : Char) : badChar (replBad c) = false := by
  unfold replBad
  by_cases h : badChar c = true
  · rw [if_pos (by simp [h])]; decide
  · rw [if_neg (by simp_all)]
    simp_all

/-- Extracting the copy domains from the per-domain event pairs recovers
the domain list. -/
theorem filterMap_copy_flatMap (L : List Str) :
    (L.flatMap fun g => [CopyEvent.msgCopy g, CopyEvent.attachPass g]).filterMap
        (fun e => match e with
          | CopyEvent.msgCopy dom => some dom
          | CopyEvent.attachPass _ => none) = L := by
  induction L with
  | nil => rfl
  | cons a t ih => simp [List.flatMap_cons, List.filterMap_append, ih, List.filterMap_cons]

/-- Extracting the attachment-pass domains from the per-domain event
pairs recovers the domain list. -/
theorem filterMap_attach_flatMap (L : List Str) :
    (L.flatMap fun g => [CopyEvent.msgCopy g, CopyEvent.attachPass g]).filterMap
        (fun e => match e with
          | CopyEvent.msgCopy _ => none
          | CopyEvent.attachPass dom => some dom) = L := by
  induction L with
  | nil => rfl
  | cons a t ih => simp [List.flatMap_cons, List.filterMap_append, ih, List.filterMap_cons]

/-- With a non-empty government set, the message copies land on the
sender's domain followed by the sorted other government domains. -/
theorem copy_domains_eq (d : EmailDomains) (h : d.gov_domains ≠ []) :
    copy_domains d = d.from_domain :: sorted_other_gov d := by
  unfold copy_domains process_events
  rw [if_neg h]
  simp [List.filterMap_append, List.filterMap_cons, filterMap_copy_flatMap]

/-- With a non-empty government set, the attachment passes land on the
same domains as the copies. -/
theorem attach_domains_eq (d : EmailDomains) (h : d.gov_domains ≠ []) :
    attach_domains d = d.from_domain :: sorted_other_gov d := by
  unfold attach_domains process_events
  rw [if_neg h]
  simp [List.filterMap_append, List.filterMap_cons, filterMap_attach_flatMap]

/-- The `while` loop of the collision resolution always returns a
numeric-suffix candidate whose counter is at least the starting one. -/
theorem collide_loop_candidate (existing : List Str) (base ext : Str) :
    ∀ fuel counter, ∃ k, counter ≤ k ∧
      collide_loop existing base ext counter fuel = candidateName base ext k := by
  intro fuel
  induction fuel with
  | zero => intro counter; exact ⟨counter, Nat.le_refl _, rfl⟩
  | succ n ih =>
    intro counter
    unfold collide_loop
    by_cases h : candidateName base ext counter ∈ existing
    · rw [if_pos h]
      obtain ⟨k, hk, heq⟩ := ih (counter + 1)
      exact ⟨k, Nat.le_of_succ_le hk, heq⟩
    · rw [if_neg h]
      exact ⟨counter, Nat.le_refl _, rfl⟩

/-! ### C3 -/

/-- C3: a file whose extracted headers classify to an empty `gov_domains`
set is skipped: processing it produces no message copy and no
attachment-extraction pass, leaving the output tree unchanged. -/
theorem C3_empty_gov_skips (fromH toH ccH : Str)
    (h : (extract_domains fromH toH ccH).gov_domains = []) :
    process_events (extract_domains fromH toH ccH) = [] := by
  unfold process_events
  rw [if_pos h]

/-- Witness for C3 at a message with no government domains. -/
theorem C3_empty_gov_skips_witness :
    (extract_domains ("a@gmail.com".toList) ("b@yahoo.com".toList) []).gov_domains = []
      ∧ process_events (extract_domains ("a@gmail.com".toList) ("b@yahoo.com".toList) []) = [] :=
  ⟨by decide, C3_empty_gov_skips ("a@gmail.com".toList) ("b@yahoo.com".toList) [] (by decide)⟩

/-! ### C5 -/

/-- C5: the path-traversal guard of the HTML linked-attachment path is a
string-prefix test, and it accepts an escaping path.  For a message in
directory `/a/b`, the href `../bc/secret.txt` resolves to
`/a/bc/secret.txt`, which lies outside `/a/b`, yet the guard
`src_file.startswith(src_path)` passes and the copy is performed —
contradicting the claimed invariant that every copied attachment's
resolved source lies inside the source file's directory. -/
theorem C5_traversal_guard_bypass :
    htmlLinkDecision ("/a/b".toList) ("../bc/secret.txt".toList)
        = LinkDecision.copyFrom ("/a/bc/secret.txt".toList)
      ∧ inDirectory ("/a/b".toList) ("/a/bc/secret.txt".toList) = false := by
  constructor
  · rfl
  · rfl

/-! ### C9 -/

/-- C9: every message-file copy (`_safe_copy`, which always passes the
resolved message datetime into `copy_with_metadata`) preserves the source
bytes and sets the destination's modification time to the resolved
message date's timestamp — a value independent of, and in general
different from, any wall-clock time `now` at which the copy is made. -/
theorem C9_copy_preserves_content_sets_mtime (src : FileAttrs) (dt : DateTime)
    (now : Int) :
    (safe_copy_file src dt).content = src.content
      ∧ (safe_copy_file src dt).mtimeTs = dtTimestamp dt
      ∧ (dtTimestamp dt ≠ now → (safe_copy_file src dt).mtimeTs ≠ now) :=
  ⟨rfl, rfl, fun h => h⟩

/-- Witness for C9 at a concrete file, date and a distinct copy time. -/
theorem C9_copy_preserves_content_sets_mtime_witness :
    dtTimestamp ⟨2024, 2, 10, 0, 0, 0, none⟩ ≠ 1
      ∧ ((safe_copy_file ⟨[7, 8], 5, 6⟩ ⟨2024, 2, 10, 0, 0, 0, none⟩).content = [7, 8]
        ∧ (safe_copy_file ⟨[7, 8], 5, 6⟩ ⟨2024, 2, 10, 0, 0, 0, none⟩).mtimeTs
            = dtTimestamp ⟨2024, 2, 10, 0, 0, 0, none⟩
        ∧ (dtTimestamp ⟨2024, 2, 10, 0, 0, 0, none⟩ ≠ 1 →
            (safe_copy_file ⟨[7, 8], 5, 6⟩ ⟨2024, 2, 10, 0, 0, 0, none⟩).mtimeTs ≠ 1)) :=
  ⟨by decide, C9_copy_preserves_content_sets_mtime ⟨[7, 8], 5, 6⟩ ⟨2024, 2, 10, 0, 0, 0, none⟩ 1⟩

/-! ### C10 -/

/-- C10: the subject directory component is the subject with every
character in `<>:"/\|?*` replaced by `'_'`, truncated to 100 characters;
it never retains an illegal character, and any two subjects whose
sanitised forms agree on their first 100 characters are filed into the
same directory. -/
theorem C10_subject_component (subject : Str) :
    (safe_subject subject).length ≤ 100
      ∧ safe_subject subject = (subject.map replBad).take 100
      ∧ (∀ c ∈ safe_subject subject, badChar c = false)
      ∧ (∀ b d y s2, (s2.map replBad).take 100 = (subject.map replBad).take 100 →
          create_email_path b d y subject = create_email_path b d y s2) := by
  refine ⟨?_, rfl, ?_, ?_⟩
  · unfold safe_subject
    rw [List.length_take]
    exact Nat.min_le_left _ _
  · intro c hc
    unfold safe_subject at hc
    have := List.take_subset 100 (subject.map replBad) hc
    obtain ⟨x, _, hx⟩ := List.mem_map.mp this
    rw [← hx]
    exact badChar_replBad x
  · intro b d y s2 h
    unfold create_email_path safe_subject
    rw [h]

/-- Witness for C10: two subjects differing only in which illegal
character they contain are filed into the same directory. -/
theorem C10_subject_component_witness :
    (("a?b".toList.map replBad).take 100 = ("a<b".toList.map replBad).take 100)
      ∧ create_email_path ("/out".toList) ("d.gov.uk".toList) ("2024".toList) ("a<b".toList)
          = create_email_path ("/out".toList) ("d.gov.uk".toList) ("2024".toList) ("a?b".toList) :=
  ⟨by decide, (C10_subject_component ("a<b".toList)).2.2.2 ("/out".toList) ("d.gov.uk".toList)
    ("2024".toList) ("a?b".toList) (by decide)⟩

/-! ### C2 -/

/-- C2: a processed message whose classification yields `N` government
domains other than its sender domain produces exactly `N + 1` physical
copies — one under the sender's domain, then one under each other
government domain in sorted order — each with its own
attachment-extraction pass; in particular the sender
`agency.gov.uk`/recipient `other.gov.uk` message yields exactly the two
copies under those two domains, and the sender `agency.gov.uk`/CC
`agency.gov.uk` message yields exactly one copy (deduplicated as a
set). -/
theorem C2_fanout_copies :
    (∀ fromH toH ccH,
      (extract_domains fromH toH ccH).gov_domains ≠ [] →
        (copy_domains (extract_domains fromH toH ccH)).length =
            ((extract_domains fromH toH ccH).gov_domains.filter
              (fun g => g ≠ (extract_domains fromH toH ccH).from_domain)).length + 1
          ∧ attach_domains (extract_domains fromH toH ccH)
              = copy_domains (extract_domains fromH toH ccH)
          ∧ copy_domains (extract_domains fromH toH ccH)
              = (extract_domains fromH toH ccH).from_domain
                  :: sorted_other_gov (extract_domains fromH toH ccH))
    ∧ copy_domains (extract_domains ("alice@agency.gov.uk".toList) ("bob@other.gov.uk".toList) [])
        = ["agency.gov.uk".toList, "other.gov.uk".toList]
    ∧ copy_domains (extract_domains ("a@agency.gov.uk".toList) [] ("b@agency.gov.uk".toList))
        = ["agency.gov.uk".toList] := by
  refine ⟨fun fromH toH ccH h => ?_, by decide, by decide⟩
  have hc := copy_domains_eq _ h
  have ha := attach_domains_eq _ h
  refine ⟨?_, ha.trans hc.symm, hc⟩
  rw [hc]
  simp [sorted_other_gov, List.length_insertionSort]

/-- Witness for C2 at the sender `agency.gov.uk`/recipient
`other.gov.uk` message. -/
theorem C2_fanout_copies_witness :
    (extract_domains ("alice@agency.gov.uk".toList) ("bob@other.gov.uk".toList) []).gov_domains ≠ []
      ∧ ((copy_domains (extract_domains ("alice@agency.gov.uk".toList) ("bob@other.gov.uk".toList) [])).length =
          ((extract_domains ("alice@agency.gov.uk".toList) ("bob@other.gov.uk".toList) []).gov_domains.filter
            (fun g => g ≠ (extract_domains ("alice@agency.gov.uk".toList) ("bob@other.gov.uk".toList) []).from_domain)).length + 1
        ∧ attach_domains (extract_domains ("alice@agency.gov.uk".toList) ("bob@other.gov.uk".toList) [])
            = copy_domains (extract_domains ("alice@agency.gov.uk".toList) ("bob@other.gov.uk".toList) [])
        ∧ copy_domains (extract_domains ("alice@agency.gov.uk".toList) ("bob@other.gov.uk".toList) [])
            = (extract_domains ("alice@agency.gov.uk".toList) ("bob@other.gov.uk".toList) []).from_domain
                :: sorted_other_gov (extract_domains ("alice@agency.gov.uk".toList) ("bob@other.gov.uk".toList) [])) :=
  ⟨by decide, C2_fanout_copies.1 ("alice@agency.gov.uk".toList) ("bob@other.gov.uk".toList) [] (by decide)⟩

/-! ### C4 -/

/-- C4 counterexample: the input `"x@y" <user>` contains `'@'`, yet
`get_domain` returns `"unknown"`, because the address parser extracts the
bare address `user` from the display-name-qualified string — refuting
"returns `"unknown"` if and only if the input contains no `'@'`". -/
theorem C4_unknown_despite_at :
    get_domain ("\"x@y\" <user>".toList) = "unknown".toList
      ∧ '@' ∈ ("\"x@y\" <user>".toList) := by
  exact ⟨by decide, by decide⟩

/-- C4 as amended: `get_domain` returns `"unknown"` whenever the parsed
bare address contains no `'@'` (in particular whenever the whole input
contains no `'@'`, since the parsed address only drops characters), and
otherwise returns `addr.split('@')[1]` stripped and lower-cased; the
"if and only if the input contains no `'@'`" direction fails because a
display-name `'@'` is discarded by the address parser. -/
theorem C4_get_domain_amended (a : Str) :
    ('@' ∉ a → get_domain a = "unknown".toList)
      ∧ ('@' ∉ parseaddr_addr a → get_domain a = "unknown".toList)
      ∧ ('@' ∈ parseaddr_addr a →
          get_domain a
            = lcStr (pstrip (((splitOnChar '@' (parseaddr_addr a)).get? 1).getD []))) := by
  refine ⟨?_, ?_, ?_⟩
  · intro h
    have h2 : '@' ∉ parseaddr_addr a := fun hm => h (mem_of_mem_parseaddr_addr hm)
    show (if '@' ∈ parseaddr_addr a then _ else _) = _
    rw [if_neg h2]
  · intro h2
    show (if '@' ∈ parseaddr_addr a then _ else _) = _
    rw [if_neg h2]
  · intro h2
    show (if '@' ∈ parseaddr_addr a then _ else _) = _
    rw [if_pos h2]

/-- Witness for C4 as amended, at an input with no `'@'` at all. -/
theorem C4_get_domain_amended_witness :
    get_domain ("abc".toList) = "unknown".toList :=
  (C4_get_domain_amended ("abc".toList)).1 (by decide)

/-! ### C8 -/

/-- C8: when a sanitised attachment filename collides with an existing
name, the written name is a numeric-suffix candidate
`base_<counter>ext` with counter at least 1; extracting two same-named
attachments `report.pdf` from one message yields `report.pdf` and
`report_1.pdf`, both present in the destination afterwards and distinct,
so neither overwrites the other. -/
theorem C8_collision_suffix :
    (∀ existing safe, safe ∈ existing →
        ∃ k, 1 ≤ k ∧ resolve_dst_name existing safe
          = candidateName (splitext safe).1 (splitext safe).2 k)
      ∧ (extract_attachment_names [] ["report.pdf".toList, "report.pdf".toList]).1
          = ["report.pdf".toList, "report_1.pdf".toList]
      ∧ "report.pdf".toList ∈ (extract_attachment_names [] ["report.pdf".toList, "report.pdf".toList]).2
      ∧ "report_1.pdf".toList ∈ (extract_attachment_names [] ["report.pdf".toList, "report.pdf".toList]).2
      ∧ "report.pdf".toList ≠ "report_1.pdf".toList := by
  refine ⟨?_, by decide, by decide, by decide, by decide⟩
  intro existing safe h
  unfold resolve_dst_name
  rw [if_pos h]
  exact collide_loop_candidate existing (splitext safe).1 (splitext safe).2
    (existing.length + 1) 1

/-- Witness for C8 at a directory already containing `report.pdf`. -/
theorem C8_collision_suffix_witness :
    "report.pdf".toList ∈ ["report.pdf".toList]
      ∧ ∃ k, 1 ≤ k ∧ resolve_dst_name ["report.pdf".toList] ("report.pdf".toList)
          = candidateName (splitext ("report.pdf".toList)).1 (splitext ("report.pdf".toList)).2 k :=
  ⟨by decide, C8_collision_suffix.1 ["report.pdf".toList] ("report.pdf".toList) (by decide)⟩

/-! ### C1 -/

/-- The filename stage, including its current-time fallback, never
returns `none`. -/
theorem filename_stage_isSome (filename : Option Str) :
    (filename_stage filename).isSome = true := by
  cases filename with
  | none => rfl
  | some fn =>
    by_cases h : fn = []
    · simp [filename_stage, h]
    · simp only [filename_stage]
      rw [if_pos h]
      cases filename_scan fn <;> rfl

/-- C1 counterexample: called with both arguments absent, `parse_date`
returns `None` (src lines 472-473) — refuting "returns a datetime for
all inputs, never returns null". -/
theorem C1_none_on_both_absent :
    parse_date (fun _ => none) none none = none := rfl

/-- C1 as amended: `parse_date` returns `None` exactly when both the raw
date and the filename are absent or empty; on every other input pair it
returns a value — a parsed datetime, or the current wall-clock time as
the logged final fallback — and the caller `_get_date_info` composes the
result with `or datetime.now()`, so the pipeline's resolved date is never
null. -/
theorem C1_resolver_total_amended (rfc : Str → Option DateTime)
    (date_str filename : Option Str) :
    (parse_date rfc date_str filename).isSome = (truthy date_str || truthy filename) := by
  unfold parse_date
  by_cases hd : truthy date_str = true
  · rw [if_neg (fun hc => hc.1 hd), hd, Bool.true_or]
    cases date_str_stage rfc date_str with
    | some dt => rfl
    | none => exact filename_stage_isSome filename
  · by_cases hf : truthy filename = true
    · rw [if_neg (fun hc => hc.2 hf), hf, Bool.or_true]
      cases date_str_stage rfc date_str with
      | some dt => rfl
      | none => exact filename_stage_isSome filename
    · rw [if_pos ⟨hd, hf⟩]
      rw [Bool.not_eq_true] at hd hf
      rw [hd, hf]
      rfl

/-! ### C7 -/

/-- C7 counterexample: a filename carrying a slash-separated
day-month-year substring is not matched by any of the five filename
patterns (the fifth accepts dashes only), so the resolver falls back to
the current time instead of the date — while the same date written with
dashes is resolved; this refutes the "slash/dash" description of the
fifth pattern. -/
theorem C7_slash_not_matched :
    parse_date (fun _ => none) none (some ("sent 11/10/2024.eml".toList))
        = some DateOutcome.currentTime
      ∧ parse_date (fun _ => none) none (some ("sent 11-10-2024.eml".toList))
        = some (DateOutcome.parsed ⟨2024, 10, 11, 0, 0, 0, none⟩) :=
  ⟨rfl, rfl⟩

/-- C7 as amended: the raw-date example resolves through the format list
(given that the stdlib RFC parser rejects the string, as it does); the
filename is scanned against the five patterns in order with first match
winning — delimited 8 digits, 8 digits before `.`/`_`, delimited 6 digits
read as `20YY`, an ISO substring, and a *dash*-separated day-month-year
substring — with `resolve("11/10/2024, 15:13", "msg.eml")` giving
2024-10-11 15:13, `resolve(None, "report_20240210_final.eml")` giving
2024-02-10, `resolve(None, "nodate.eml")` giving the current time, one
example per remaining pattern, and the delimited-8-digit pattern taking
precedence over the dashed one. -/
theorem C7_filename_chain_amended :
    (∀ rfc : Str → Option DateTime, rfc ("11/10/2024, 15:13".toList) = none →
        parse_date rfc (some ("11/10/2024, 15:13".toList)) (some ("msg.eml".toList))
          = some (DateOutcome.parsed ⟨2024, 10, 11, 15, 13, 0, none⟩))
      ∧ (∀ rfc, parse_date rfc none (some ("report_20240210_final.eml".toList))
          = some (DateOutcome.parsed ⟨2024, 2, 10, 0, 0, 0, none⟩))
      ∧ (∀ rfc, parse_date rfc none (some ("nodate.eml".toList))
          = some DateOutcome.currentTime)
      ∧ (∀ rfc, parse_date rfc none (some ("x20240210.eml".toList))
          = some (DateOutcome.parsed ⟨2024, 2, 10, 0, 0, 0, none⟩))
      ∧ (∀ rfc, parse_date rfc none (some ("log-240210-x.eml".toList))
          = some (DateOutcome.parsed ⟨2024, 2, 10, 0, 0, 0, none⟩))
      ∧ (∀ rfc, parse_date rfc none (some ("rep_2024-02-10_x.eml".toList))
          = some (DateOutcome.parsed ⟨2024, 2, 10, 0, 0, 0, none⟩))
      ∧ (∀ rfc, parse_date rfc none (some ("note 11-10-2024.eml".toList))
          = some (DateOutcome.parsed ⟨2024, 10, 11, 0, 0, 0, none⟩))
      ∧ (∀ rfc, parse_date rfc none (some ("a_20240210_and_11-10-2024.eml".toList))
          = some (DateOutcome.parsed ⟨2024, 2, 10, 0, 0, 0, none⟩)) := by
  refine ⟨?_, fun rfc => rfl, fun rfc => rfl, fun rfc => rfl, fun rfc => rfl,
    fun rfc => rfl, fun rfc => rfl, fun rfc => rfl⟩
  intro rfc h
  have hstage : date_str_stage rfc (some ("11/10/2024, 15:13".toList))
      = some ⟨2024, 10, 11, 15, 13, 0, none⟩ := by
    have hp : pstrip ("11/10/2024, 15:13".toList) = "11/10/2024, 15:13".toList := by decide
    simp only [date_str_stage]
    rw [if_pos (by decide), hp, h]
    decide
  unfold parse_date
  rw [if_neg (fun hc => hc.1 (by decide)), hstage]

/-- Witness for C7 with the stdlib parser's actual rejection of the
non-RFC raw date supplied concretely. -/
theorem C7_filename_chain_amended_witness :
    ((fun _ => (none : Option DateTime)) ("11/10/2024, 15:13".toList) = none)
      ∧ parse_date (fun _ => none) (some ("11/10/2024, 15:13".toList)) (some ("msg.eml".toList))
          = some (DateOutcome.parsed ⟨2024, 10, 11, 15, 13, 0, none⟩) :=
  ⟨rfl, C7_filename_chain_amended.1 (fun _ => none) rfl⟩

/-! ### C6 -/

/-- C6 counterexample: on markup-free text that the Content Sniffer
accepts, stage 2 (the HTML path) produces an all-empty record, yet
`extract_eml_details` returns that empty record instead of advancing to
the per-header regex fallback, which would have produced a non-empty
`To` — refuting "advancing to the next stage only when the current stage
fails to produce at least one non-empty header". -/
theorem C6_stage2_swallows_empty :
    looks_like_email ("mailto: a@b.c Reply-To: x".toList) = true
      ∧ anyNonEmpty (extract_email_details_noTags ("mailto: a@b.c Reply-To: x".toList)) = false
      ∧ extract_eml_details_model none extract_email_details_noTags
          ("mailto: a@b.c Reply-To: x".toList) = emptyHeaders
      ∧ anyNonEmpty (regex_header_fallback ("mailto: a@b.c Reply-To: x".toList)) = true :=
  ⟨by decide, by decide, by decide, by decide⟩

/-- C6 as amended: the three stages are tried in order and the returned
record always comes from a single stage (never merged); stage 1's record
is kept only when it has a non-empty header, but the gate between
stages 2 and 3 is the Content Sniffer alone — when the sniffer accepts
the text the HTML path's record is returned even if all-empty, and the
regex fallback runs only when the sniffer rejects (or stage 2 raises).
(As written, stage 1 feeds the binary file handle to the text-mode MIME
parser and so always raises, modelled by `mime = none`.) -/
theorem C6_stage_chain_amended (mime : Option Headers) (htmlExtract : Str → Headers)
    (content : Str) :
    (∀ h, mime = some h → anyNonEmpty h = true →
        extract_eml_details_model mime htmlExtract content = h)
      ∧ ((mime = none ∨ (∃ h, mime = some h ∧ anyNonEmpty h = false)) →
          looks_like_email content = true →
          extract_eml_details_model mime htmlExtract content = htmlExtract content)
      ∧ ((mime = none ∨ (∃ h, mime = some h ∧ anyNonEmpty h = false)) →
          looks_like_email content = false →
          extract_eml_details_model mime htmlExtract content = regex_header_fallback content)
      ∧ ((∃ h, mime = some h ∧ extract_eml_details_model mime htmlExtract content = h)
          ∨ extract_eml_details_model mime htmlExtract content = htmlExtract content
          ∨ extract_eml_details_model mime htmlExtract content = regex_header_fallback content) := by
  refine ⟨?_, ?_, ?_, ?_⟩
  · intro h hm ha
    subst hm
    simp [extract_eml_details_model, ha]
  · intro hfail hl
    rcases hfail with hm | ⟨h, hm, ha⟩
    · subst hm
      simp [extract_eml_details_model, hl]
    · subst hm
      simp [extract_eml_details_model, ha, hl]
  · intro hfail hl
    rcases hfail with hm | ⟨h, hm, ha⟩
    · subst hm
      simp [extract_eml_details_model, hl]
    · subst hm
      simp [extract_eml_details_model, ha, hl]
  · cases hm : mime with
    | none =>
      by_cases hl : looks_like_email content = true
      · right; left
        simp [extract_eml_details_model, hl]
      · right; right
        simp only [Bool.not_eq_true] at hl
        simp [extract_eml_details_model, hl]
    | some h =>
      by_cases ha : anyNonEmpty h = true
      · left
        exact ⟨h, rfl, by simp [extract_eml_details_model, ha]⟩
      · simp only [Bool.not_eq_true] at ha
        by_cases hl : looks_like_email content = true
        · right; left
          simp [extract_eml_details_model, ha, hl]
        · right; right
          simp only [Bool.not_eq_true] at hl
          simp [extract_eml_details_model, ha, hl]

/-- Witness for C6 as amended: on text the sniffer accepts and with the
(realised) failing stage 1, the result is exactly the HTML path's
record. -/
theorem C6_stage_chain_amended_witness :
    ((none : Option Headers) = none
        ∨ (∃ h, (none : Option Headers) = some h ∧ anyNonEmpty h = false))
      ∧ looks_like_email ("From: a@b.c mailto: x@y.z".toList) = true
      ∧ extract_eml_details_model none extract_email_details_noTags
            ("From: a@b.c mailto: x@y.z".toList)
          = extract_email_details_noTags ("From: a@b.c mailto: x@y.z".toList) :=
  ⟨Or.inl rfl, by decide,
    (C6_stage_chain_amended none extract_email_details_noTags
      ("From: a@b.c mailto: x@y.z".toList)).2.1 (Or.inl rfl) (by decide)⟩

end EmailOrg
